import Mathlib

/-!
Verification of the ESP8266 Arduino core waveform generator
(`cores/esp8266/core_esp8266_waveform.cpp`).

The C++ source works on `uint32_t` clock-cycle counts with wraparound and
uses `static_cast<int32_t>(a - b) >= 0` as the wraparound-tolerant order
test.  We model `uint32_t` values as `Nat` reduced modulo `2^32` at every
operation where the C code can overflow, and translate the signed
comparisons explicitly.

The hardware collaborators (cycle counter, TIMER1 registers, GPIO
registers) are replaced by explicit state fields; the NMI handler
`timer1Interrupt` is split into its request-consumption stage
(`consumeRequests`, lines 249-285 of the source) and its per-channel
event-processing step (`chanStep`, lines 301-397, the body of the scan
loop for one pin).  The blocking waits in `startWaveformClockCycles` and
`stopWaveform` (which spin until the NMI consumes the posted mailbox
request) are modelled by composing with `consumeRequests` at the wait
point.
-/

namespace Esp8266Waveform

/-- `2^32`, the modulus of `uint32_t` arithmetic. -/
def M32 : Nat := 2 ^ 32

/-- Reduce a natural number to its `uint32_t` value. -/
def u32 (n : Nat) : Nat := n % M32

/-- `uint32_t` subtraction `a - b` (wraparound). -/
def sub32 (a b : Nat) : Nat := (a + (M32 - b % M32)) % M32

/-- The C idiom `static_cast<int32_t>(a - b) >= 0`: the wraparound-tolerant
"b is not after a" test. -/
def sge (a b : Nat) : Bool := decide (sub32 a b < 2 ^ 31)

/-- The C idiom `static_cast<int32_t>(a - b) > 0`. -/
def sgt (a b : Nat) : Bool := decide (0 < sub32 a b ∧ sub32 a b < 2 ^ 31)

/-- Modelled from the spec: the platform's cycle/time conversion for the
80 MHz build (`clockCyclesPerMicrosecond() == 80`); the macro itself lives
in the platform headers, outside this repository's source file. -/
def clockCyclesPerMicrosecond : Nat := 80

/-- Modelled from the spec: `microsecondsToClockCycles(a) = a *
clockCyclesPerMicrosecond()`, from the platform headers. -/
def microsecondsToClockCycles (us : Nat) : Nat := us * clockCyclesPerMicrosecond

/-- Maximum delay between IRQs, 1 Hz [sic, comment in source]; the
anti-thrash threshold.  `microsecondsToClockCycles(10000) = 800000`. -/
def MAXIRQCCYS : Nat := microsecondsToClockCycles 10000

/-- Modelled from the spec: the pin-validity predicate rejecting the
reserved flash-interface pins (GPIO 6..11 on the ESP8266); the macro lives
in the platform headers, outside this repository's source file. -/
def isFlashInterfacePin (p : Nat) : Bool := decide (6 ≤ p ∧ p ≤ 11)

/-- `WaveformMode` of the source: scheduling state of one channel. -/
inductive WaveformMode where
  | INFINITE
  | EXPIRES
  | UPDATEEXPIRY
  | INIT
deriving DecidableEq, Repr

/-- The per-pin `Waveform` record of the source. -/
structure Waveform where
  nextEventCcy : Nat
  nextPeriodCcy : Nat
  endDutyCcy : Nat
  dutyCcys : Nat
  periodCcys : Nat
  expiryCcy : Nat
  mode : WaveformMode
  alignPhase : Int
  autoPwm : Bool
deriving DecidableEq, Repr

/-- The anonymous `waveform` struct of the source, together with the
modelled hardware state: `pinOut` is the physical output level of each
GPIO (covering both the `GPOS`/`GPOC` registers for pins 0..15 and the
`GP16O` register for pin 16), and `timer1Running` mirrors the flag kept
by `initTimer`/`deinitTimer`. -/
structure SchedState where
  pins : Nat → Waveform
  states : Nat
  enabled : Nat
  toSet : Int
  toDisable : Int
  hasTimer1CB : Bool
  timer1Running : Bool
  pinOut : Nat → Bool

/-- The anti-thrash normalization of `startWaveformClockCycles` (source
lines 148-156): the `(highCcys, periodCcys)` pair after the below-threshold
stretch of a 0% or 100% duty request. -/
def stretchPeriod (highCcys lowCcys : Nat) : Nat × Nat :=
  let highCcys0 := u32 highCcys
  let periodCcys0 := u32 (highCcys0 + u32 lowCcys)
  if periodCcys0 < MAXIRQCCYS then
    if highCcys0 = 0 then
      (highCcys0, MAXIRQCCYS / periodCcys0 * periodCcys0)
    else if u32 lowCcys = 0 then
      (MAXIRQCCYS / periodCcys0 * periodCcys0, MAXIRQCCYS / periodCcys0 * periodCcys0)
    else (highCcys0, periodCcys0)
  else (highCcys0, periodCcys0)

/-- The sanity checks of `startWaveformClockCycles` (source lines 157-161),
on the post-stretch values; `static_cast<int32_t>(periodCcys) <= 0` is
`periodCcys = 0 ∨ 2^31 ≤ periodCcys`. -/
def startArgsInvalid (pin : Nat) (highCcys lowCcys : Nat) (alignPhase : Int) : Bool :=
  let highCcys1 := (stretchPeriod highCcys lowCcys).1
  let periodCcys1 := (stretchPeriod highCcys lowCcys).2
  decide (pin > 16) || isFlashInterfacePin pin || decide (alignPhase > 16) ||
    decide (periodCcys1 = 0) || decide (2 ^ 31 ≤ periodCcys1) ||
    decide (highCcys1 > periodCcys1)

/-- `startWaveformClockCycles` (source lines 146-209).  Returns the
success flag and the state as left by the call, with the mailbox post
(`toSet`) still pending when one was made; `initTimer`'s effect is the
`timer1Running := true` assignment (the `timer1_write` re-arm touches only
the hardware latch, which we do not track). -/
def startWaveformClockCycles (s : SchedState) (pin : Nat)
    (highCcys lowCcys runTimeCcys : Nat) (alignPhase : Int)
    (phaseOffsetCcys : Nat) (autoPwm : Bool) : Bool × SchedState :=
  let highCcys1 := (stretchPeriod highCcys lowCcys).1
  let periodCcys1 := (stretchPeriod highCcys lowCcys).2
  if startArgsInvalid pin highCcys lowCcys alignPhase then
    (false, s)
  else
    let w0 := s.pins pin
    let w1 := { w0 with dutyCcys := highCcys1, periodCcys := periodCcys1, autoPwm := autoPwm }
    if s.enabled &&& (1 <<< pin) = 0 then
      -- new channel: wave.nextPeriodCcy / wave.endDutyCcy are initialized by the ISR
      let w2 := { w1 with
        nextPeriodCcy := u32 phaseOffsetCcys
        expiryCcy := u32 runTimeCcys  -- in WaveformMode::INIT, temporarily a relative count
        mode := WaveformMode.INIT
        alignPhase := if alignPhase < 0 then -1 else alignPhase }
      let s1 := { s with pins := Function.update s.pins pin w2 }
      -- if initially at zero duty cycle, force GPIO off
      let s2 := if w2.dutyCcys = 0 then
          { s1 with pinOut := Function.update s1.pinOut pin false }
        else s1
      (true, { s2 with toSet := Int.ofNat pin, timer1Running := true })
    else
      -- existing channel: update is staged directly
      let w2 := { w1 with mode := WaveformMode.INFINITE, expiryCcy := u32 runTimeCcys }
      if u32 runTimeCcys ≠ 0 then
        let w3 := { w2 with mode := WaveformMode.UPDATEEXPIRY }
        (true, { s with pins := Function.update s.pins pin w3, toSet := Int.ofNat pin })
      else
        (true, { s with pins := Function.update s.pins pin w2 })

/-- The request-consumption stage of `timer1Interrupt` (source lines
249-285): fold any pending activate/deactivate mailbox posts into
`enabled`, then run the `WaveformMode` transition of a just-posted pin
(`INIT` anchoring and relative-to-absolute expiry conversion).  `now` is
the `ESP.getCycleCount()` read at line 262. -/
def consumeRequests (now : Nat) (s : SchedState) : SchedState :=
  let toSetMask := if 0 ≤ s.toSet then u32 (1 <<< s.toSet.toNat) else 0
  let toDisableMask := if 0 ≤ s.toDisable then u32 (1 <<< s.toDisable.toNat) else 0
  let s1 :=
    if (toSetMask ≠ 0 ∧ s.enabled &&& toSetMask = 0) ∨ toDisableMask ≠ 0 then
      { s with enabled := s.enabled &&& ((M32 - 1) ^^^ toDisableMask) ||| toSetMask,
               toDisable := -1 }
    else s
  if toSetMask ≠ 0 then
    let pin := s.toSet.toNat
    let w := s1.pins pin
    match w.mode with
    | WaveformMode.INIT =>
      -- clear the state of any just started
      let states1 := s1.states &&& ((M32 - 1) ^^^ toSetMask)
      let np := if 0 ≤ w.alignPhase ∧ s1.enabled &&& (1 <<< w.alignPhase.toNat) ≠ 0 then
          u32 ((s1.pins w.alignPhase.toNat).nextPeriodCcy + w.nextPeriodCcy)
        else now
      let w1 := { w with nextPeriodCcy := np, nextEventCcy := np }
      let w2 := if w1.expiryCcy = 0 then { w1 with mode := WaveformMode.INFINITE }
        else { w1 with expiryCcy := u32 (w1.expiryCcy + np), mode := WaveformMode.EXPIRES }
      { s1 with states := states1, pins := Function.update s1.pins pin w2, toSet := -1 }
    | WaveformMode.UPDATEEXPIRY =>
      let w1 := { w with expiryCcy := u32 (w.expiryCcy + w.nextPeriodCcy),
                         mode := WaveformMode.EXPIRES }
      { s1 with pins := Function.update s1.pins pin w1, toSet := -1 }
    | _ => { s1 with toSet := -1 }
  else s1

/-- `stopWaveform` (source lines 212-236).  The source posts `toDisable`
and spins until the NMI clears it; the spin is modelled by running
`consumeRequests` at the wait point.  The final `deinitTimer` call maps to
clearing `timer1Running`. -/
def stopWaveform (now : Nat) (s : SchedState) (pin : Nat) : Bool × SchedState :=
  if ¬ s.timer1Running then (false, s)
  else
    -- if user sends in a pin > 16 but < 32, `1UL << pin` points to a 0 bit
    -- of `enabled`; if ≥ 32 the shifted mask is 0
    let s1 := if s.enabled &&& u32 (1 <<< pin) ≠ 0 then
        consumeRequests now { s with toDisable := Int.ofNat pin }
      else s
    let s2 := if s1.enabled = 0 ∧ ¬ s1.hasTimer1CB then { s1 with timer1Running := false }
      else s1
    (true, s2)

/-- View of one channel inside the scan loop of `timer1Interrupt`:
its `Waveform` record, its bit of `waveform.states` (`level`), its bit of
`waveform.enabled`, and the physical GPIO output level. -/
structure ChanState where
  wave : Waveform
  level : Bool
  enabled : Bool
  gpio : Bool
deriving DecidableEq, Repr

/-- Write `nextEventCcy` from the computed `nextEdgeCcy`, clamped to the
expiry cycle in `EXPIRES` mode (source lines 386-388). -/
def setNextEvent (w : Waveform) (nextEdgeCcy : Nat) : Waveform :=
  { w with nextEventCcy :=
      if w.mode = WaveformMode.EXPIRES ∧ sgt nextEdgeCcy w.expiryCcy then w.expiryCcy
      else nextEdgeCcy }

/-- One pass of the per-pin body of the `timer1Interrupt` scan loop
(source lines 301-397) for a single channel, at cycle count `now`. -/
def chanStep (now : Nat) (c : ChanState) : ChanState :=
  if ¬ c.enabled then c
  else if ¬ sge now c.wave.nextEventCcy then c
  else if c.wave.mode = WaveformMode.EXPIRES ∧ c.wave.nextEventCcy = c.wave.expiryCcy then
    -- disable any waveforms that are done
    { c with enabled := false }
  else
    let w := c.wave
    let idleCcys := sub32 w.periodCcys w.dutyCcys
    -- true accumulated overshoot, guaranteed ≥ 0 in this spot
    let overshootCcys := sub32 now (if c.level then w.endDutyCcy else w.nextPeriodCcy)
    let fwdPeriods := if idleCcys ≤ overshootCcys then
        u32 (overshootCcys + w.dutyCcys) / w.periodCcys
      else 0
    let fwdPeriodCcys := u32 (fwdPeriods * w.periodCcys)
    if c.level then
      -- up to and including this period 100% duty
      let endOfPeriod := w.nextPeriodCcy = w.endDutyCcy
      if idleCcys = 0 then
        -- active configuration and forward 100% duty
        let np := u32 (w.nextPeriodCcy + (fwdPeriodCcys + w.periodCcys))
        { c with wave := setNextEvent { w with nextPeriodCcy := np, endDutyCcy := np } np }
      else if endOfPeriod then
        -- preceding period had zero idle cycle, continue direct into new duty cycle
        let np0 := if fwdPeriods ≠ 0 then u32 (w.nextPeriodCcy + fwdPeriodCcys)
          else w.nextPeriodCcy
        let ex := if fwdPeriods ≠ 0 ∧ w.mode = WaveformMode.EXPIRES then
            u32 (w.expiryCcy + fwdPeriodCcys)
          else w.expiryCcy
        let ed := u32 (np0 + w.dutyCcys)
        let np := u32 (np0 + w.periodCcys)
        { c with wave :=
            setNextEvent { w with nextPeriodCcy := np, endDutyCcy := ed, expiryCcy := ex } ed }
      else
        -- falling edge; with autoPwm the idle-cycle update approximates the duty/idle ratio
        let ne := if w.autoPwm ∧ microsecondsToClockCycles 3 ≤ w.dutyCcys then
            u32 (w.nextPeriodCcy + overshootCcys / w.dutyCcys * idleCcys)
          else w.nextPeriodCcy
        { c with wave := setNextEvent w ne, level := false, gpio := false }
    else
      if w.dutyCcys = 0 then
        let np := u32 (w.nextPeriodCcy + (fwdPeriodCcys + w.periodCcys))
        let w1 := { w with nextPeriodCcy := np, endDutyCcy := np }
        { c with wave := setNextEvent w1 w1.endDutyCcy }
      else
        -- rising edge
        let np1 := u32 (w.nextPeriodCcy + w.periodCcys)
        let ed1 := u32 (now + w.dutyCcys)
        let np2 := if fwdPeriods ≠ 0 then u32 (np1 + fwdPeriodCcys) else np1
        -- maintain phase and duty/idle ratio, temporarily reduce frequency by fwdPeriods
        let ed2 := if fwdPeriods ≠ 0 ∧ w.autoPwm then u32 (ed1 + fwdPeriods * w.dutyCcys)
          else ed1
        -- adapt expiry such that it occurs during the intended cycle
        let ex := if fwdPeriods ≠ 0 ∧ w.mode = WaveformMode.EXPIRES then
            u32 (w.expiryCcy + fwdPeriodCcys)
          else w.expiryCcy
        let w1 := { w with nextPeriodCcy := np2, endDutyCcy := ed2, expiryCcy := ex }
        { c with wave := setNextEvent w1 w1.endDutyCcy, level := true, gpio := true }

/-- Modelled from the spec: the "un-skipped period-by-period simulation"
reference — the same per-channel step with the forward-period skip
disabled (`fwdPeriods` forced to 0), so every missed period is replayed
one event at a time. -/
def noSkipChanStep (now : Nat) (c : ChanState) : ChanState :=
  if ¬ c.enabled then c
  else if ¬ sge now c.wave.nextEventCcy then c
  else if c.wave.mode = WaveformMode.EXPIRES ∧ c.wave.nextEventCcy = c.wave.expiryCcy then
    { c with enabled := false }
  else
    let w := c.wave
    let idleCcys := sub32 w.periodCcys w.dutyCcys
    let overshootCcys := sub32 now (if c.level then w.endDutyCcy else w.nextPeriodCcy)
    if c.level then
      let endOfPeriod := w.nextPeriodCcy = w.endDutyCcy
      if idleCcys = 0 then
        let np := u32 (w.nextPeriodCcy + w.periodCcys)
        { c with wave := setNextEvent { w with nextPeriodCcy := np, endDutyCcy := np } np }
      else if endOfPeriod then
        let ed := u32 (w.nextPeriodCcy + w.dutyCcys)
        let np := u32 (w.nextPeriodCcy + w.periodCcys)
        { c with wave := setNextEvent { w with nextPeriodCcy := np, endDutyCcy := ed } ed }
      else
        let ne := if w.autoPwm ∧ microsecondsToClockCycles 3 ≤ w.dutyCcys then
            u32 (w.nextPeriodCcy + overshootCcys / w.dutyCcys * idleCcys)
          else w.nextPeriodCcy
        { c with wave := setNextEvent w ne, level := false, gpio := false }
    else
      if w.dutyCcys = 0 then
        let np := u32 (w.nextPeriodCcy + w.periodCcys)
        let w1 := { w with nextPeriodCcy := np, endDutyCcy := np }
        { c with wave := setNextEvent w1 w1.endDutyCcy }
      else
        let np1 := u32 (w.nextPeriodCcy + w.periodCcys)
        let ed1 := u32 (now + w.dutyCcys)
        let w1 := { w with nextPeriodCcy := np1, endDutyCcy := ed1 }
        { c with wave := setNextEvent w1 w1.endDutyCcy, level := true, gpio := true }

/-- Iterate the un-skipped reference at a fixed cycle count until the
channel's next event moves into the future (the reference simulation of a
late firing), with explicit fuel. -/
def replayChan : Nat → Nat → ChanState → ChanState
  | 0, _, c => c
  | fuel + 1, now, c =>
      if c.enabled ∧ sge now c.wave.nextEventCcy then
        replayChan fuel now (noSkipChanStep now c)
      else c

/-- An idle channel record (all fields zeroed, no phase alignment). -/
def w0 : Waveform :=
  { nextEventCcy := 0, nextPeriodCcy := 0, endDutyCcy := 0, dutyCcys := 0,
    periodCcys := 0, expiryCcy := 0, mode := WaveformMode.INFINITE,
    alignPhase := -1, autoPwm := false }

/-- The quiescent scheduler state: no channel active, no pending request,
timer stopped. -/
def s0 : SchedState :=
  { pins := fun _ => w0, states := 0, enabled := 0, toSet := -1, toDisable := -1,
    hasTimer1CB := false, timer1Running := false, pinOut := fun _ => false }

/-- The round trip of the spec: `startWaveformClockCycles`, one scheduler
pass consuming the activate request, `stopWaveform` (whose spin-wait in
turn runs the pass consuming the deactivate request).  Returns the two
success flags and the final state. -/
def startThenStop (s : SchedState) (pin : Nat) (high low runTime : Nat) (align : Int)
    (phase : Nat) (apwm : Bool) (now1 now2 : Nat) : Bool × Bool × SchedState :=
  let r1 := startWaveformClockCycles s pin high low runTime align phase apwm
  let s1 := consumeRequests now1 r1.2
  let r2 := stopWaveform now2 s1 pin
  (r1.1, r2.1, r2.2)

/-- Concrete channel in `EXPIRES` mode, due exactly at its expiry cycle
9000 (activated at anchor 1000 with run time 8000). -/
def cExp : ChanState :=
  { wave :=
      { w0 with
        nextEventCcy := 9000
        nextPeriodCcy := 9500
        endDutyCcy := 9100
        dutyCcys := 500
        periodCcys := 2000
        expiryCcy := 9000
        mode := WaveformMode.EXPIRES }
    level := false
    enabled := true
    gpio := false }

/-- Concrete low channel waiting for its rising edge at anchor 1000,
period 2000, duty 500. -/
def cLow : ChanState :=
  { wave :=
      { w0 with
        nextEventCcy := 1000
        nextPeriodCcy := 1000
        dutyCcys := 500
        periodCcys := 2000 }
    level := false
    enabled := true
    gpio := false }

/-- Concrete 0%-duty channel held low (stretched period 800000). -/
def cZero : ChanState :=
  { wave :=
      { w0 with
        nextEventCcy := 1000
        nextPeriodCcy := 1000
        endDutyCcy := 1000
        periodCcys := 800000 }
    level := false
    enabled := true
    gpio := false }

/-- Concrete state exercising phase alignment: channel 0 enabled with
period anchor 12345; channel 1 posted for activation in `INIT` mode with
relative offset 70, aligned to channel 0. -/
def sAlign : SchedState :=
  { s0 with
    enabled := 1
    toSet := Int.ofNat 1
    pins := fun i =>
      if i = 0 then { w0 with nextPeriodCcy := 12345 }
      else if i = 1 then
        { w0 with
          nextPeriodCcy := 70
          mode := WaveformMode.INIT
          alignPhase := Int.ofNat 0 }
      else w0 }

/-! ### Helper lemmas -/

theorem u32_eq_self {n : Nat} (h : n < 2 ^ 32) : u32 n = n := by
  simp only [u32, M32]; omega

theorem sub32_eq_sub {a b : Nat} (hb : b ≤ a) (ha : a < 2 ^ 32) : sub32 a b = a - b := by
  simp only [sub32, M32]; omega

theorem sge_eq_true {a b : Nat} (ha : a < 2 ^ 31) (hb : b < 2 ^ 31) (h : b ≤ a) :
    sge a b = true := by
  simp only [sge, sub32, M32, decide_eq_true_iff]; omega

theorem sge_eq_false {a b : Nat} (ha : a < 2 ^ 31) (hb : b < 2 ^ 31) (h : a < b) :
    sge a b = false := by
  simp only [sge, sub32, M32, decide_eq_false_iff_not]; omega

theorem land_shift_eq_zero {n pin : Nat} (h : n.testBit pin = false) :
    n &&& 1 <<< pin = 0 := by
  rw [Nat.shiftLeft_eq, one_mul, Nat.and_two_pow, h]
  simp

theorem land_shift_ne_zero {n pin : Nat} (h : n.testBit pin = true) :
    n &&& 1 <<< pin ≠ 0 := by
  rw [Nat.shiftLeft_eq, one_mul, Nat.and_two_pow, h]
  simp only [Bool.toNat_true, one_mul]
  positivity

/-- On any successful call, the fields stored into the channel record are
the post-stretch duty and period, on both the new-channel and the
existing-channel paths. -/
theorem start_success_fields (s : SchedState) (pin : Nat)
    (high low runTime : Nat) (align : Int) (phase : Nat) (apwm : Bool)
    (hok : (startWaveformClockCycles s pin high low runTime align phase apwm).1 = true) :
    ((startWaveformClockCycles s pin high low runTime align phase apwm).2.pins pin).dutyCcys
        = (stretchPeriod high low).1 ∧
    ((startWaveformClockCycles s pin high low runTime align phase apwm).2.pins pin).periodCcys
        = (stretchPeriod high low).2 := by
  by_cases hinv : startArgsInvalid pin high low align = true
  · simp [startWaveformClockCycles, hinv] at hok
  · rw [Bool.not_eq_true] at hinv
    by_cases hen : s.enabled &&& 1 <<< pin = 0
    · simp [startWaveformClockCycles, hinv, hen, apply_ite SchedState.pins]
    · by_cases hrt : u32 runTime = 0 <;>
        simp [startWaveformClockCycles, hinv, hen, hrt]

theorem land_mask32 {n : Nat} (h : n < 2 ^ 32) : n &&& (M32 - 1) = n := by
  simp only [M32]
  exact Nat.and_pow_two_sub_one_of_lt_two_pow h

theorem testBit_or_shift_ne {n pin k : Nat} (hkp : k ≠ pin) :
    (n ||| 1 <<< pin).testBit k = n.testBit k := by
  rw [Nat.testBit_or, Nat.shiftLeft_eq, one_mul, Nat.testBit_two_pow]
  simp [Ne.symm hkp]

theorem testBit_and_compl_shift {n pin k : Nat} (hk : k < 32) :
    (n &&& ((M32 - 1) ^^^ 1 <<< pin)).testBit k = (n.testBit k && ! decide (pin = k)) := by
  rw [Nat.testBit_and, Nat.testBit_xor, Nat.shiftLeft_eq, one_mul, Nat.testBit_two_pow]
  simp only [M32]
  rw [Nat.testBit_two_pow_sub_one]
  simp [hk, Bool.xor_comm]

theorem shift_ne_zero (pin : Nat) : (1 : Nat) <<< pin ≠ 0 := by
  rw [Nat.shiftLeft_eq, one_mul]
  positivity

theorem u32_shift_eq {pin : Nat} (h : pin < 32) : u32 (1 <<< pin) = 1 <<< pin :=
  u32_eq_self (by
    rw [Nat.shiftLeft_eq, one_mul]
    exact Nat.pow_lt_pow_right (by norm_num) h)

/-! ### Claim theorems -/

/-- C1, counterexample: with `highCcys = 100, lowCcys = 100` the requested
period `200` is below the anti-thrash threshold `MAXIRQCCYS`, the call
succeeds, yet the stored effective period is `200`, strictly below the
threshold — the claim's "effective period ... is at least the threshold"
is false (no stretching happens at all when both `highCcys` and `lowCcys`
are nonzero). -/
theorem stretch_below_threshold_cex :
    100 + 100 < MAXIRQCCYS ∧
    (startWaveformClockCycles s0 1 100 100 0 (-1) 0 false).1 = true ∧
    ((startWaveformClockCycles s0 1 100 100 0 (-1) 0 false).2.pins 1).periodCcys
      < MAXIRQCCYS := by
  decide

/-- C1, amended: for a requested period `high + low` below `MAXIRQCCYS`,
the stretch applies only to a 0% or 100% duty request (`high = 0` or
`low = 0`); in that case the stored effective period is the *largest*
integer multiple of the requested period that does not exceed the
threshold (so it is within one requested period below `MAXIRQCCYS`, not
necessarily ≥ it), a 0% duty stays exactly 0% (`dutyCcys = 0`) and a 100%
duty stays exactly 100% (`dutyCcys = periodCcys`); with both `high` and
`low` nonzero the period is stored unchanged. -/
theorem stretch_largest_multiple (s : SchedState) (pin : Nat)
    (high low runTime : Nat) (align : Int) (phase : Nat) (apwm : Bool)
    (hperiod : high + low < MAXIRQCCYS) (hpos : 0 < high + low)
    (hok : (startWaveformClockCycles s pin high low runTime align phase apwm).1 = true) :
    let w := (startWaveformClockCycles s pin high low runTime align phase apwm).2.pins pin
    (high + low) ∣ w.periodCcys ∧
    ((high = 0 ∨ low = 0) →
      (w.periodCcys = MAXIRQCCYS / (high + low) * (high + low) ∧
       MAXIRQCCYS - (high + low) < w.periodCcys ∧ w.periodCcys ≤ MAXIRQCCYS)) ∧
    (high = 0 → w.dutyCcys = 0) ∧
    (low = 0 → w.dutyCcys = w.periodCcys) ∧
    (high ≠ 0 → low ≠ 0 → w.periodCcys = high + low ∧ w.dutyCcys = high) := by
  intro w
  obtain ⟨hd, hp⟩ := start_success_fields s pin high low runTime align phase apwm hok
  rw [show (startWaveformClockCycles s pin high low runTime align phase apwm).2.pins pin
      = w from rfl] at hd hp
  have hM : MAXIRQCCYS = 800000 := by decide
  have hb : high + low < 800000 := hM ▸ hperiod
  have hhi : u32 high = high := u32_eq_self (by omega)
  have hlo : u32 low = low := u32_eq_self (by omega)
  have hsum : u32 (high + low) = high + low := u32_eq_self (by omega)
  have hdm : MAXIRQCCYS / (high + low) * (high + low) + MAXIRQCCYS % (high + low)
      = MAXIRQCCYS := by
    rw [Nat.mul_comm (MAXIRQCCYS / (high + low)) (high + low)]
    exact Nat.div_add_mod _ _
  have hmod : MAXIRQCCYS % (high + low) < high + low := Nat.mod_lt _ hpos
  have hstrb : stretchPeriod high low =
      if high = 0 then (high, MAXIRQCCYS / (high + low) * (high + low))
      else if low = 0 then
        (MAXIRQCCYS / (high + low) * (high + low), MAXIRQCCYS / (high + low) * (high + low))
      else (high, high + low) := by
    simp only [stretchPeriod, hhi, hlo, hsum, hperiod, if_true]
  rcases Nat.eq_zero_or_pos high with hh | hh
  · -- 0% duty request: stretched
    rw [hstrb, if_pos hh] at hd hp
    simp only at hd hp
    refine ⟨⟨MAXIRQCCYS / (high + low), by rw [hp]; ring⟩, fun _ => ⟨hp, ?_, ?_⟩,
      fun _ => by omega, fun hl0 => by omega, fun hh0 _ => absurd hh hh0⟩ <;>
      · generalize hq : MAXIRQCCYS / (high + low) * (high + low) = q at hp hdm
        omega
  · rcases Nat.eq_zero_or_pos low with hl | hl
    · -- 100% duty request: stretched
      rw [hstrb, if_neg (by omega), if_pos hl] at hd hp
      simp only at hd hp
      refine ⟨⟨MAXIRQCCYS / (high + low), by rw [hp]; ring⟩, fun _ => ⟨hp, ?_, ?_⟩,
        fun hh0 => by omega, fun _ => by rw [hd, hp], fun _ hl0 => absurd hl0 (by omega)⟩ <;>
        · generalize hq : MAXIRQCCYS / (high + low) * (high + low) = q at hp hdm
          omega
    · -- both nonzero: unchanged
      rw [hstrb, if_neg (by omega), if_neg (by omega)] at hd hp
      simp only at hd hp
      exact ⟨⟨1, by rw [hp]; ring⟩, fun h0 => by omega, fun h0 => by omega,
        fun h0 => by omega, fun _ _ => ⟨hp, hd⟩⟩

/-- C1 witness: the amended theorem applied at `high = 0, low = 500`. -/
theorem stretch_largest_multiple_witness :
    0 + 500 < MAXIRQCCYS ∧ 0 < 0 + 500 ∧
    (0 + 500) ∣ ((startWaveformClockCycles s0 1 0 500 0 (-1) 0 false).2.pins 1).periodCcys := by
  have h := stretch_largest_multiple s0 1 0 500 0 (-1) 0 false (by decide) (by decide)
    (by decide)
  exact ⟨by decide, by decide, h.1⟩

/-- C7: any call of `startWaveformClockCycles` rejected by the sanity
checks (invalid pin, reserved flash pin, out-of-range `alignPhase`,
non-positive effective period, or duty exceeding the period) returns
failure and leaves the entire state unchanged: no channel record field,
no bitmask, no mailbox and no timer state is touched. -/
theorem start_invalid_no_side_effects (s : SchedState) (pin : Nat)
    (high low runTime : Nat) (align : Int) (phase : Nat) (apwm : Bool)
    (hinv : startArgsInvalid pin high low align = true) :
    startWaveformClockCycles s pin high low runTime align phase apwm = (false, s) := by
  simp [startWaveformClockCycles, hinv]

/-- C7 witness: pin 7 is a reserved flash-interface pin; the call fails
with no state mutation. -/
theorem start_invalid_no_side_effects_witness :
    startArgsInvalid 7 100 100 (-1) = true ∧
    startWaveformClockCycles s0 7 100 100 0 (-1) 0 false = (false, s0) :=
  ⟨by decide, start_invalid_no_side_effects s0 7 100 100 0 (-1) 0 false (by decide)⟩

/-- C9: `startWaveformClockCycles` on an already-enabled channel with
`runTimeCcys = 0` succeeds, sets the channel's mode to `INFINITE` (even
if it was `EXPIRES`), stores `expiryCcy = 0`, and never posts a mailbox
request (`toSet` keeps its previous value), so a previously pending
finite expiry is silently cancelled and the channel runs until stopped. -/
theorem start_enabled_runtime_zero_infinite (s : SchedState) (pin : Nat)
    (high low : Nat) (align : Int) (phase : Nat) (apwm : Bool)
    (hinv : startArgsInvalid pin high low align = false)
    (hen : s.enabled.testBit pin = true) :
    (startWaveformClockCycles s pin high low 0 align phase apwm).1 = true ∧
    ((startWaveformClockCycles s pin high low 0 align phase apwm).2.pins pin).mode
      = WaveformMode.INFINITE ∧
    ((startWaveformClockCycles s pin high low 0 align phase apwm).2.pins pin).expiryCcy = 0 ∧
    (startWaveformClockCycles s pin high low 0 align phase apwm).2.toSet = s.toSet := by
  have hne := land_shift_ne_zero hen
  simp [startWaveformClockCycles, hinv, hne, u32, M32]

/-- C9 witness: channel 2 enabled (bit 2 of `enabled` set), restarted
with `runTimeCcys = 0`. -/
theorem start_enabled_runtime_zero_infinite_witness :
    startArgsInvalid 2 100 100 (-1) = false ∧
    Nat.testBit (({ s0 with enabled := 4 } : SchedState).enabled) 2 = true ∧
    ((startWaveformClockCycles { s0 with enabled := 4 } 2 100 100 0 (-1) 0 false).2.pins 2).mode
      = WaveformMode.INFINITE := by
  have h := start_enabled_runtime_zero_infinite { s0 with enabled := 4 } 2 100 100 (-1) 0
    false (by decide) (by decide)
  exact ⟨by decide, by decide, h.2.1⟩

/-- C10: `stopWaveform` performs no pin-range validation.  For any pin
index in 17..31 while the hardware timer is running (with the invariant
that `enabled` only ever holds bits 0..16), the call returns `true`,
posts no deactivate request and changes no channel record or bitmask;
and when no channel is enabled and no periodic callback is installed it
additionally stops the hardware timer. -/
theorem stopWaveform_pin_out_of_range (now : Nat) (s : SchedState) (pin : Nat)
    (h17 : 17 ≤ pin) (h31 : pin ≤ 31) (hrun : s.timer1Running = true)
    (hen : s.enabled < 2 ^ 17) :
    stopWaveform now s pin =
      (true, if s.enabled = 0 ∧ ¬ s.hasTimer1CB = true then { s with timer1Running := false }
             else s) := by
  have hb : s.enabled.testBit pin = false :=
    Nat.testBit_lt_two_pow (lt_of_lt_of_le hen (Nat.pow_le_pow_right (by norm_num) h17))
  have hz : s.enabled &&& u32 (1 <<< pin) = 0 := by
    rw [u32_eq_self (by
      rw [Nat.shiftLeft_eq, one_mul]
      exact Nat.pow_lt_pow_right (by norm_num) (by omega))]
    exact land_shift_eq_zero hb
  simp [stopWaveform, hrun, hz]

/-- C10 witness: pin 20, timer running, no channel enabled, no callback:
returns `true` and stops the timer. -/
theorem stopWaveform_pin_out_of_range_witness :
    (17 ≤ 20 ∧ 20 ≤ 31) ∧
    ({ s0 with timer1Running := true } : SchedState).timer1Running = true ∧
    ({ s0 with timer1Running := true } : SchedState).enabled < 2 ^ 17 ∧
    stopWaveform 0 { s0 with timer1Running := true } 20 =
      (true, if ({ s0 with timer1Running := true } : SchedState).enabled = 0 ∧
               ¬ ({ s0 with timer1Running := true } : SchedState).hasTimer1CB = true then
               { ({ s0 with timer1Running := true } : SchedState) with timer1Running := false }
             else { s0 with timer1Running := true }) :=
  ⟨⟨by decide, by decide⟩, by decide, by decide,
    stopWaveform_pin_out_of_range 0 { s0 with timer1Running := true } 20 (by decide)
      (by decide) (by decide) (by decide)⟩

/-- C4: when the scheduler consumes an activation request for a channel
in `INIT` mode with `alignPhase = k` (`k ≠ pin`), the new channel's
period anchor `nextPeriodCcy` is set to channel k's current period anchor
plus the stored relative phase offset (which the request left in
`nextPeriodCcy`) exactly when channel k is enabled at consumption time;
otherwise it is set to the current cycle count `now`. -/
theorem consume_init_phase_alignment (now : Nat) (s : SchedState) (pin k : Nat)
    (hpin : pin ≤ 16) (hk : k ≤ 16) (hkp : k ≠ pin)
    (hset : s.toSet = Int.ofNat pin) (hdis : s.toDisable = -1)
    (hmode : (s.pins pin).mode = WaveformMode.INIT)
    (halign : (s.pins pin).alignPhase = Int.ofNat k)
    (hen : s.enabled < 2 ^ 32) :
    ((consumeRequests now s).pins pin).nextPeriodCcy =
      (if s.enabled.testBit k = true
       then u32 ((s.pins k).nextPeriodCcy + (s.pins pin).nextPeriodCcy)
       else now) := by
  have hshift := u32_shift_eq (show pin < 32 by omega)
  have hs0 := shift_ne_zero pin
  by_cases hbp : s.enabled.testBit pin = true
  · have hnz := land_shift_ne_zero hbp
    by_cases hbk : s.enabled.testBit k = true
    · have hk2 := land_shift_ne_zero hbk
      simp [consumeRequests, hset, hdis, hshift, hs0, hnz, hmode, halign, hbk, hk2,
        apply_ite Waveform.nextPeriodCcy]
    · rw [Bool.not_eq_true] at hbk
      have hk2 := land_shift_eq_zero hbk
      simp [consumeRequests, hset, hdis, hshift, hs0, hnz, hmode, halign, hbk, hk2,
        apply_ite Waveform.nextPeriodCcy]
  · rw [Bool.not_eq_true] at hbp
    have hz := land_shift_eq_zero hbp
    by_cases hbk : s.enabled.testBit k = true
    · have hk2 := land_shift_ne_zero (n := s.enabled ||| 1 <<< pin)
        (by rw [testBit_or_shift_ne hkp]; exact hbk)
      simp [consumeRequests, hset, hdis, hshift, hs0, hz, Nat.xor_zero, land_mask32 hen,
        hmode, halign, hbk, hk2, apply_ite Waveform.nextPeriodCcy]
    · rw [Bool.not_eq_true] at hbk
      have hk2 := land_shift_eq_zero (n := s.enabled ||| 1 <<< pin)
        (by rw [testBit_or_shift_ne hkp]; exact hbk)
      simp [consumeRequests, hset, hdis, hshift, hs0, hz, Nat.xor_zero, land_mask32 hen,
        hmode, halign, hbk, hk2, apply_ite Waveform.nextPeriodCcy]

/-- C4 witness: channel 0 enabled with anchor 12345; channel 1 activated
in `INIT` mode with `alignPhase = 0` and stored offset 70; its anchor
becomes `12345 + 70`. -/
theorem consume_init_phase_alignment_witness :
    ((consumeRequests 999 sAlign).pins 1).nextPeriodCcy =
      (if sAlign.enabled.testBit 0 = true
       then u32 ((sAlign.pins 0).nextPeriodCcy + (sAlign.pins 1).nextPeriodCcy)
       else 999) :=
  consume_init_phase_alignment 999 sAlign 1 0 (by decide) (by decide) (by decide)
    (by decide) (by decide) (by decide) (by decide) (by decide)

/-- If an event-processing pass changes a channel's `enabled` bit at all,
then the channel was due (`now` reached `nextEventCcy`), was in `EXPIRES`
mode with the event equal to the expiry cycle, and the bit was cleared. -/
theorem chanStep_enabled_ne (now : Nat) (c : ChanState)
    (h : (chanStep now c).enabled ≠ c.enabled) :
    sge now c.wave.nextEventCcy = true ∧ c.wave.mode = WaveformMode.EXPIRES ∧
    c.wave.nextEventCcy = c.wave.expiryCcy ∧ (chanStep now c).enabled = false := by
  unfold chanStep at *
  split_ifs at h ⊢ <;> simp_all [apply_ite ChanState.enabled]

/-- C2: the scheduler clears a finite-run-time channel's enabled bit only
once the channel's run time has elapsed: if a channel in `EXPIRES` mode
whose absolute expiry cycle is at least `a + R` (activation anchor `a`
plus requested run time `R`; the scheduler's forward-period compensation
only ever pushes the expiry later) is disabled by an event-processing
pass at cycle `now`, then at least `R` cycles have already elapsed since
the activation anchor — the bit is never cleared strictly before. -/
theorem chanStep_no_early_expiry (now a R : Nat) (c : ChanState)
    (hen : c.enabled = true) (hmode : c.wave.mode = WaveformMode.EXPIRES)
    (hexp : a + R ≤ c.wave.expiryCcy) (hb : c.wave.expiryCcy < 2 ^ 31)
    (hnow : now < 2 ^ 31)
    (hdis : (chanStep now c).enabled = false) :
    a + R ≤ now := by
  have hne : (chanStep now c).enabled ≠ c.enabled := by
    rw [hdis, hen]
    simp
  obtain ⟨hsge, _, hev, _⟩ := chanStep_enabled_ne now c hne
  rw [hev] at hsge
  by_contra hlt
  rw [sge_eq_false hnow hb (by omega)] at hsge
  exact Bool.false_ne_true hsge

/-- C2 witness: channel `cExp` (anchor 1000, run time 8000, expiry 9000)
disabled by the pass at cycle 9000: indeed 1000 + 8000 ≤ 9000. -/
theorem chanStep_no_early_expiry_witness : 1000 + 8000 ≤ 9000 :=
  chanStep_no_early_expiry 9000 1000 8000 cExp (by decide) (by decide) (by decide)
    (by decide) (by decide) (by decide)

/-- C8: `startWaveformClockCycles(pin=2, highCcys=0, lowCcys=500,
runTimeCcys=0, alignPhase=-1, phaseOffset=0, autoPwm=false)` on an
inactive channel 2 succeeds, forces the physical output of pin 2 low
already inside the call (before any scheduler pass) and stores a zero
duty; and for any channel with zero duty whose level bit is low, an
event-processing pass never raises the level bit, never touches the
physical pin, and keeps the duty zero — so pin 2 stays low indefinitely. -/
theorem start_zero_duty_forces_low :
    (∀ s : SchedState, s.enabled.testBit 2 = false →
      (startWaveformClockCycles s 2 0 500 0 (-1) 0 false).1 = true ∧
      (startWaveformClockCycles s 2 0 500 0 (-1) 0 false).2.pinOut 2 = false ∧
      ((startWaveformClockCycles s 2 0 500 0 (-1) 0 false).2.pins 2).dutyCcys = 0) ∧
    (∀ (now : Nat) (c : ChanState), c.wave.dutyCcys = 0 → c.level = false →
      (chanStep now c).level = false ∧ (chanStep now c).gpio = c.gpio ∧
      (chanStep now c).wave.dutyCcys = 0) := by
  constructor
  · intro s hen
    have hz : s.enabled &&& 4 = 0 := by simpa using land_shift_eq_zero hen
    have hstr : stretchPeriod 0 500 = (0, 800000) := by decide
    have hinv : startArgsInvalid 2 0 500 (-1) = false := by decide
    simp [startWaveformClockCycles, hinv, hz, hstr]
  · intro now c h0 hl
    unfold chanStep
    split_ifs <;> simp_all [setNextEvent, h0, hl]

/-- C8 witness: part one applied at the quiescent state, part two at the
concrete 0%-duty channel `cZero` with a pass at cycle 5000. -/
theorem start_zero_duty_forces_low_witness :
    (s0.enabled.testBit 2 = false ∧
     (startWaveformClockCycles s0 2 0 500 0 (-1) 0 false).2.pinOut 2 = false) ∧
    (cZero.wave.dutyCcys = 0 ∧ cZero.level = false ∧
     (chanStep 5000 cZero).level = false ∧ (chanStep 5000 cZero).gpio = cZero.gpio) := by
  have h := start_zero_duty_forces_low
  exact ⟨⟨by decide, (h.1 s0 (by decide)).2.1⟩,
    ⟨by decide, by decide, (h.2 5000 cZero (by decide) (by decide)).1,
     (h.2 5000 cZero (by decide) (by decide)).2.1⟩⟩

theorem shift_and_compl_self {pin : Nat} (h : pin < 32) :
    1 <<< pin &&& ((M32 - 1) ^^^ 1 <<< pin) = 0 := by
  apply Nat.eq_of_testBit_eq
  intro i
  rw [Nat.testBit_and, Nat.testBit_xor, Nat.shiftLeft_eq, one_mul, Nat.testBit_two_pow]
  simp only [M32, Nat.testBit_two_pow_sub_one, Nat.zero_testBit]
  by_cases hpi : pin = i
  · subst hpi
    simp [h]
  · simp [hpi]

/-- C5: updating an already-active channel is tear-free.  (i) The call
itself stages only `dutyCcys`/`periodCcys`/`autoPwm`/mode/expiry: the
channel's scheduled edges (`nextEventCcy`, `nextPeriodCcy`, `endDutyCcy`),
the output-level bitmask, the physical pins and the enabled mask are all
left untouched, so the pending edge still happens exactly where the old
configuration scheduled it.  (ii) An event-processing pass never acts
before the scheduled `nextEventCcy`.  (iii) At the channel's next
low-to-high transition the staged values govern: the new high phase is
exactly the staged duty long (`endDutyCcy = now + dutyCcys`). -/
theorem start_update_tear_free :
    (∀ (s : SchedState) (pin : Nat) (high low runTime : Nat) (align : Int)
       (phase : Nat) (apwm : Bool),
      startArgsInvalid pin high low align = false →
      s.enabled.testBit pin = true →
      ((startWaveformClockCycles s pin high low runTime align phase apwm).2.pins pin).nextEventCcy
          = (s.pins pin).nextEventCcy ∧
      ((startWaveformClockCycles s pin high low runTime align phase apwm).2.pins pin).nextPeriodCcy
          = (s.pins pin).nextPeriodCcy ∧
      ((startWaveformClockCycles s pin high low runTime align phase apwm).2.pins pin).endDutyCcy
          = (s.pins pin).endDutyCcy ∧
      (startWaveformClockCycles s pin high low runTime align phase apwm).2.states = s.states ∧
      (startWaveformClockCycles s pin high low runTime align phase apwm).2.pinOut = s.pinOut ∧
      (startWaveformClockCycles s pin high low runTime align phase apwm).2.enabled = s.enabled) ∧
    (∀ (now : Nat) (c : ChanState), sge now c.wave.nextEventCcy = false →
      chanStep now c = c) ∧
    (∀ (now : Nat) (c : ChanState), c.enabled = true → c.level = false →
      c.wave.autoPwm = false → c.wave.dutyCcys ≠ 0 →
      ¬(c.wave.mode = WaveformMode.EXPIRES ∧ c.wave.nextEventCcy = c.wave.expiryCcy) →
      sge now c.wave.nextEventCcy = true →
      (chanStep now c).level = true ∧
      (chanStep now c).wave.endDutyCcy = u32 (now + c.wave.dutyCcys)) := by
  refine ⟨?_, ?_, ?_⟩
  · intro s pin high low runTime align phase apwm hinv hen
    have hne := land_shift_ne_zero hen
    by_cases hrt : u32 runTime = 0 <;>
      simp [startWaveformClockCycles, hinv, hne, hrt]
  · intro now c hsge
    unfold chanStep
    simp [hsge]
  · intro now c hen hl hap hd hnexp hsge
    unfold chanStep
    simp only [hen, hl, hap, hsge, hnexp, setNextEvent]
    split_ifs <;> simp_all [setNextEvent]

/-- C5 witness: part (i) at a concrete enabled state, parts (ii)/(iii)
at the concrete low channel `cLow`. -/
theorem start_update_tear_free_witness :
    (startArgsInvalid 2 100 100 (-1) = false ∧
     Nat.testBit (({ s0 with enabled := 4 } : SchedState).enabled) 2 = true ∧
     ((startWaveformClockCycles { s0 with enabled := 4 } 2 100 100 0 (-1) 0
        false).2.pins 2).nextEventCcy
       = (({ s0 with enabled := 4 } : SchedState).pins 2).nextEventCcy) ∧
    (sge 500 cLow.wave.nextEventCcy = false ∧ chanStep 500 cLow = cLow) ∧
    ((chanStep 1000 cLow).level = true ∧
     (chanStep 1000 cLow).wave.endDutyCcy = u32 (1000 + cLow.wave.dutyCcys)) := by
  have h := start_update_tear_free
  refine ⟨⟨by decide, by decide,
    (h.1 { s0 with enabled := 4 } 2 100 100 0 (-1) 0 false (by decide) (by decide)).1⟩,
    ⟨by decide, h.2.1 500 cLow (by decide)⟩, ?_⟩
  exact h.2.2 1000 cLow (by decide) (by decide) (by decide) (by decide) (by decide)
    (by decide)

/-- A successful call on an inactive channel: the control fields after
the call (`toSet` posted, timer started, masks untouched, channel record
staged in `INIT` mode). -/
theorem start_new_posts (s : SchedState) (pin : Nat)
    (high low runTime : Nat) (align : Int) (phase : Nat) (apwm : Bool)
    (hinv : startArgsInvalid pin high low align = false)
    (hen : s.enabled &&& 1 <<< pin = 0) :
    (startWaveformClockCycles s pin high low runTime align phase apwm).1 = true ∧
    (startWaveformClockCycles s pin high low runTime align phase apwm).2.toSet
      = Int.ofNat pin ∧
    (startWaveformClockCycles s pin high low runTime align phase apwm).2.toDisable
      = s.toDisable ∧
    (startWaveformClockCycles s pin high low runTime align phase apwm).2.enabled
      = s.enabled ∧
    (startWaveformClockCycles s pin high low runTime align phase apwm).2.timer1Running
      = true ∧
    (startWaveformClockCycles s pin high low runTime align phase apwm).2.hasTimer1CB
      = s.hasTimer1CB ∧
    ((startWaveformClockCycles s pin high low runTime align phase apwm).2.pins pin).mode
      = WaveformMode.INIT := by
  by_cases hd0 : (stretchPeriod high low).1 = 0 <;>
    simp [startWaveformClockCycles, hinv, hen, hd0]

/-- Consuming a pending `INIT` activation on an otherwise idle scheduler:
the pin's bit is folded into `enabled`, the mailbox is cleared, and the
timer/callback flags are untouched. -/
theorem consume_init_control (now : Nat) (t : SchedState) (pin : Nat)
    (hpin : pin ≤ 16)
    (hset : t.toSet = Int.ofNat pin) (hdis : t.toDisable = -1)
    (hen : t.enabled = 0) (hmode : (t.pins pin).mode = WaveformMode.INIT) :
    (consumeRequests now t).enabled = 1 <<< pin ∧
    (consumeRequests now t).toSet = -1 ∧
    (consumeRequests now t).toDisable = -1 ∧
    (consumeRequests now t).timer1Running = t.timer1Running ∧
    (consumeRequests now t).hasTimer1CB = t.hasTimer1CB := by
  have hshift := u32_shift_eq (show pin < 32 by omega)
  have hs0 := shift_ne_zero pin
  simp [consumeRequests, hset, hdis, hen, hmode, hshift, hs0]

/-- Stopping the only active channel when no callback is installed: the
request is consumed, `enabled` empties and the timer is stopped. -/
theorem stop_only_channel (now : Nat) (u : SchedState) (pin : Nat)
    (hpin : pin ≤ 16)
    (hrun : u.timer1Running = true) (hset : u.toSet = -1)
    (hen : u.enabled = 1 <<< pin) (hcb : u.hasTimer1CB = false) :
    (stopWaveform now u pin).1 = true ∧
    (stopWaveform now u pin).2.enabled = 0 ∧
    (stopWaveform now u pin).2.timer1Running = false := by
  have hshift := u32_shift_eq (show pin < 32 by omega)
  have hs0 := shift_ne_zero pin
  have hcompl := shift_and_compl_self (show pin < 32 by omega)
  simp [stopWaveform, consumeRequests, hrun, hset, hen, hcb, hshift, hs0, hcompl,
    Nat.and_self]

/-- C6: a successful `start(pin, …)` on a quiescent scheduler (no other
channel active, no periodic callback, no pending request) followed by
`stop(pin)`, with the scheduler consuming both requests, succeeds in both
calls, leaves the `enabled` mask empty (in particular bit `pin` clear),
and — since `pin` was the only active channel and no callback is
installed — stops the hardware timer. -/
theorem start_stop_roundtrip (s : SchedState) (pin : Nat)
    (high low runTime : Nat) (align : Int) (phase : Nat) (apwm : Bool)
    (now1 now2 : Nat) (hpin : pin ≤ 16)
    (hinv : startArgsInvalid pin high low align = false)
    (hen : s.enabled = 0) (hcb : s.hasTimer1CB = false)
    (hset : s.toSet = -1) (hdis : s.toDisable = -1) :
    (startThenStop s pin high low runTime align phase apwm now1 now2).1 = true ∧
    (startThenStop s pin high low runTime align phase apwm now1 now2).2.1 = true ∧
    (startThenStop s pin high low runTime align phase apwm now1 now2).2.2.enabled = 0 ∧
    (startThenStop s pin high low runTime align phase apwm now1 now2).2.2.timer1Running
      = false := by
  obtain ⟨h1, h2, h3, h4, h5, h6, h7⟩ := start_new_posts s pin high low runTime align
    phase apwm hinv (by rw [hen]; exact Nat.zero_and _)
  obtain ⟨g1, g2, g3, g4, g5⟩ := consume_init_control now1
    (startWaveformClockCycles s pin high low runTime align phase apwm).2 pin hpin h2
    (by rw [h3]; exact hdis) (by rw [h4]; exact hen) h7
  obtain ⟨f1, f2, f3⟩ := stop_only_channel now2
    (consumeRequests now1 (startWaveformClockCycles s pin high low runTime align
      phase apwm).2) pin hpin (by rw [g4]; exact h5) g2 g1 (by rw [g5, h6]; exact hcb)
  exact ⟨h1, f1, f2, f3⟩

/-- C6 witness: the spec's concrete scenario — a 50%-duty square wave on
pin 4 started on the quiescent state, then stopped. -/
theorem start_stop_roundtrip_witness :
    (startThenStop s0 4 1000 1000 0 (-1) 0 false 1000 5000).1 = true ∧
    (startThenStop s0 4 1000 1000 0 (-1) 0 false 1000 5000).2.1 = true ∧
    (startThenStop s0 4 1000 1000 0 (-1) 0 false 1000 5000).2.2.enabled = 0 ∧
    (startThenStop s0 4 1000 1000 0 (-1) 0 false 1000 5000).2.2.timer1Running = false :=
  start_stop_roundtrip s0 4 1000 1000 0 (-1) 0 false 1000 5000 (by decide) (by decide)
    (by decide) (by decide) (by decide) (by decide)

/-- C3: overrun compensation at a rising edge.  For an active low channel
(`INFINITE` mode, `autoPwm` off, `0 < duty < period`) whose firing is
late by at least one whole period (`nextPeriodCcy + periodCcys ≤ now`),
a single event-processing pass advances the period anchor by exactly the
integer number of whole missed periods (`fwdPeriods + 1` periods, with
`fwdPeriods = (overshoot + duty) / period` as in the source) instead of
replaying each missed toggle, and after the pass the channel is fully
caught up (`nextEventCcy` is in the future); the output level and
physical pin it produces equal those of the un-skipped period-by-period
reference simulation, which performs exactly the same single toggle (no
extra toggles). -/
theorem chanStep_overrun_compensation (now : Nat) (c : ChanState)
    (hen : c.enabled = true) (hlev : c.level = false)
    (hmode : c.wave.mode = WaveformMode.INFINITE) (hap : c.wave.autoPwm = false)
    (hduty : 0 < c.wave.dutyCcys) (hidle : c.wave.dutyCcys < c.wave.periodCcys)
    (hanchor : c.wave.nextEventCcy = c.wave.nextPeriodCcy)
    (hmiss : c.wave.nextPeriodCcy + c.wave.periodCcys ≤ now)
    (hb : now + c.wave.periodCcys + c.wave.dutyCcys < 2 ^ 31) :
    (chanStep now c).wave.nextPeriodCcy
        = c.wave.nextPeriodCcy +
            ((now - c.wave.nextPeriodCcy + c.wave.dutyCcys) / c.wave.periodCcys + 1)
              * c.wave.periodCcys ∧
    sge now (chanStep now c).wave.nextEventCcy = false ∧
    (chanStep now c).level = true ∧ (chanStep now c).gpio = true ∧
    (∀ fuel, replayChan (fuel + 1) now c = noSkipChanStep now c) ∧
    (noSkipChanStep now c).level = (chanStep now c).level ∧
    (noSkipChanStep now c).gpio = (chanStep now c).gpio := by
  obtain ⟨⟨ne, np, ed, du, pe, ex, mo, al, ap⟩, lv, en, gp⟩ := c
  simp only at hen hlev hmode hap hduty hidle hanchor hmiss hb ⊢
  subst hen hlev hmode hap hanchor
  have hfp : (now - ne + du) / pe * pe ≤ now - ne + du := Nat.div_mul_le_self _ _
  have hs1 : sub32 pe du = pe - du := sub32_eq_sub (by omega) (by omega)
  have hs2 : sub32 now ne = now - ne := sub32_eq_sub (by omega) (by omega)
  have hs3 : u32 (now - ne + du) = now - ne + du := u32_eq_self (by omega)
  have hs4 : u32 ((now - ne + du) / pe * pe) = (now - ne + du) / pe * pe :=
    u32_eq_self (by omega)
  have hs5 : u32 (ne + pe) = ne + pe := u32_eq_self (by omega)
  have hs6 : u32 (ne + pe + (now - ne + du) / pe * pe)
      = ne + pe + (now - ne + du) / pe * pe := u32_eq_self (by omega)
  have hs7 : u32 (now + du) = now + du := u32_eq_self (by omega)
  have hguard : pe - du ≤ now - ne := by omega
  have hguard2 : pe ≤ now - ne + du := by omega
  have hfz : ¬((now - ne + du) / pe = 0) := by
    have h1 : 1 ≤ (now - ne + du) / pe := (Nat.one_le_div_iff (by omega)).mpr (by omega)
    omega
  have hsge : sge now ne = true := sge_eq_true (by omega) (by omega) (by omega)
  have hsge2 : sge now (now + du) = false := sge_eq_false (by omega) (by omega) (by omega)
  have hstep : chanStep now ⟨⟨ne, ne, ed, du, pe, ex, WaveformMode.INFINITE, al, false⟩,
      false, true, gp⟩ =
      ⟨⟨now + du, ne + pe + (now - ne + du) / pe * pe, now + du, du, pe, ex,
        WaveformMode.INFINITE, al, false⟩, true, true, true⟩ := by
    simp [chanStep, setNextEvent, hsge, hs1, hs2, hs3, hs4, hs5, hs6, hs7, hguard,
      hguard2, hfz, hduty.ne']
  have hnoskip : noSkipChanStep now ⟨⟨ne, ne, ed, du, pe, ex, WaveformMode.INFINITE, al,
      false⟩, false, true, gp⟩ =
      ⟨⟨now + du, ne + pe, now + du, du, pe, ex, WaveformMode.INFINITE, al, false⟩,
        true, true, true⟩ := by
    simp [noSkipChanStep, setNextEvent, hsge, hs1, hs2, hs3, hs5, hs7, hduty.ne']
  rw [hstep, hnoskip]
  refine ⟨?_, hsge2, rfl, rfl, ?_, rfl, rfl⟩
  · show ne + pe + (now - ne + du) / pe * pe = ne + ((now - ne + du) / pe + 1) * pe
    ring
  · intro fuel
    rw [replayChan, if_pos ⟨rfl, hsge⟩, hnoskip]
    cases fuel with
    | zero => rfl
    | succ f =>
        rw [replayChan]
        rw [if_neg (by simp [hsge2])]

/-- C3 witness: channel `cLow` (anchor 1000, period 2000, duty 500)
processed at cycle 8300, i.e. 3 whole periods plus most of a fourth
missed: the anchor skips to `1000 + 4 * 2000` in one pass and the level
matches the un-skipped reference. -/
theorem chanStep_overrun_compensation_witness :
    (chanStep 8300 cLow).wave.nextPeriodCcy
        = cLow.wave.nextPeriodCcy +
            ((8300 - cLow.wave.nextPeriodCcy + cLow.wave.dutyCcys) / cLow.wave.periodCcys + 1)
              * cLow.wave.periodCcys ∧
    (chanStep 8300 cLow).level = true ∧
    (noSkipChanStep 8300 cLow).level = (chanStep 8300 cLow).level := by
  have h := chanStep_overrun_compensation 8300 cLow (by decide) (by decide) (by decide)
    (by decide) (by decide) (by decide) (by decide) (by decide) (by decide)
  exact ⟨h.1, h.2.2.1, h.2.2.2.2.2.1⟩

end Esp8266Waveform
